import Mathlib

/-!
Verification of the scheduling and state-coordination core of the
travel-post generator (src/app.py, src/database.py).

The Python code is shallowly embedded: wall-clock instants are modelled as
integer seconds on a naive timeline (the code uses naive `datetime.now()`
throughout; second resolution is exact here because every candidate instant
the code constructs has `second=0, microsecond=0`, so all comparisons the
code performs are decided identically at second resolution).  String
inspection is done structurally over the character list of a `String` so
that all definitions evaluate by kernel reduction.
-/

namespace SMM

/-! ## Python string primitives

Helpers mirroring the exact Python string operations the source uses:
`str.strip()`, `str.split(sep)`, `str.split()` (whitespace runs),
`str.split(maxsplit=1)`, `str.lower()` (the code only ever compares against
ASCII command literals, so ASCII lowering is observationally sufficient),
and `int(s)` (optional sign, decimal digits, grouping underscores between
digits; non-ASCII digit forms are not modelled). -/

def pyStripChars (cs : List Char) : List Char :=
  ((cs.dropWhile Char.isWhitespace).reverse.dropWhile Char.isWhitespace).reverse

def pyStrip (s : String) : String :=
  String.mk (pyStripChars s.toList)

def splitOnChar (sep : Char) : List Char → List (List Char)
  | [] => [[]]
  | c :: cs =>
    let rest := splitOnChar sep cs
    if c = sep then
      [] :: rest
    else
      match rest with
      | [] => [[c]]
      | r :: rs => (c :: r) :: rs

def pySplitOn (s : String) (sep : Char) : List String :=
  (splitOnChar sep s.toList).map String.mk

def pySplitWSAux : List Char → List Char → List (List Char)
  | [], acc => if acc.isEmpty then [] else [acc.reverse]
  | c :: cs, acc =>
    if c.isWhitespace then
      if acc.isEmpty then pySplitWSAux cs [] else acc.reverse :: pySplitWSAux cs []
    else
      pySplitWSAux cs (c :: acc)

def pySplit (s : String) : List String :=
  (pySplitWSAux s.toList []).map String.mk

def pySplitMax1 (s : String) : List String :=
  let cs := s.toList.dropWhile Char.isWhitespace
  match cs with
  | [] => []
  | _ =>
    let tok := cs.takeWhile (fun c => !c.isWhitespace)
    let rest := (cs.dropWhile (fun c => !c.isWhitespace)).dropWhile Char.isWhitespace
    match rest with
    | [] => [String.mk tok]
    | _ => [String.mk tok, String.mk rest]

def lowerStr (s : String) : String :=
  String.mk (s.toList.map Char.toLower)

def startsWith (pre s : String) : Bool :=
  pre.toList.isPrefixOf s.toList

def pyDigitsScan : List Char → Bool → Bool
  | [], mustDigit => !mustDigit
  | c :: cs, mustDigit =>
    if c.isDigit then pyDigitsScan cs false
    else if c = '_' && !mustDigit then pyDigitsScan cs true
    else false

def pyDigitsVal : List Char → Nat → Nat
  | [], acc => acc
  | c :: cs, acc =>
    if c = '_' then pyDigitsVal cs acc
    else pyDigitsVal cs (acc * 10 + (c.toNat - 48))

def pyInt? (s : String) : Option Int :=
  let cs := pyStripChars s.toList
  let signAndDigits : Bool × List Char :=
    match cs with
    | '-' :: rest => (true, rest)
    | '+' :: rest => (false, rest)
    | _ => (false, cs)
  if pyDigitsScan signAndDigits.2 true then
    let n : Int := Int.ofNat (pyDigitsVal signAndDigits.2 0)
    some (if signAndDigits.1 then -n else n)
  else
    none

/-! ## ScheduleManager (src/app.py lines 56-166)

The in-memory schedule record.  `next_run_at` is stored by the code as an
ISO string and re-parsed with `fromisoformat`; since every value the code
writes round-trips, it is modelled directly as an absolute instant. -/

structure Schedule where
  next_post_time : Option String
  frequency_hours : Int
  enabled : Bool
  next_run_at : Option Int
deriving Repr, DecidableEq

def defaultSchedule : Schedule :=
  { next_post_time := none, frequency_hours := 24, enabled := true, next_run_at := none }

def secondsPerDay : Int := 86400

/-- First two colon-separated fields of the stripped string, both parsed by
Python `int` — mirrors `map(int, str(x).strip().split(":")[:2])` with the
two-target unpacking (fewer than two fields raises, collapsing to `none`). -/
def hmFields (s : String) : Option (Int × Int) :=
  match splitOnChar ':' (pyStripChars s.toList) with
  | a :: b :: _ =>
    match pyInt? (String.mk a), pyInt? (String.mk b) with
    | some h, some m => some (h, m)
    | _, _ => none
  | _ => none

/-- Result of `now.replace(hour=h, minute=m, second=0, microsecond=0)`;
`replace` raises `ValueError` outside the valid field ranges. -/
def replaceHM? (now h m : Int) : Option Int :=
  if 0 ≤ h ∧ h ≤ 23 ∧ 0 ≤ m ∧ m ≤ 59 then
    some (now - now % secondsPerDay + h * 3600 + m * 60)
  else
    none

/-- Roll a candidate that is not strictly in the future to the next day:
`if candidate <= now: candidate += timedelta(days=1)`. -/
def rollForward (now cand : Int) : Int :=
  if cand ≤ now then cand + secondsPerDay else cand

/-- ScheduleManager.set_next_post_time (app.py lines 101-114). -/
def set_next_post_time (sch : Schedule) (post_time : String) (now : Int) : Schedule :=
  let sch1 := { sch with next_post_time := some post_time }
  if post_time ≠ "" ∧ post_time.toList.contains ':' ∧ post_time.toList.length ≤ 5 then
    match hmFields post_time with
    | some hm =>
      match replaceHM? now hm.1 hm.2 with
      | some cand => { sch1 with next_run_at := some (rollForward now cand) }
      | none => sch1
    | none => sch1
  else
    sch1

/-- ScheduleManager.set_frequency (app.py lines 116-119). -/
def set_frequency (sch : Schedule) (hours : Int) : Schedule :=
  { sch with frequency_hours := hours }

/-- ScheduleManager.set_enabled (app.py lines 129-132). -/
def set_enabled (sch : Schedule) (e : Bool) : Schedule :=
  { sch with enabled := e }

/-- ScheduleManager.get_next_run_at (app.py lines 134-156): returns the
cached absolute due time if present, else lazily derives it from
`next_post_time` and memoizes the derived value. -/
def get_next_run_at (sch : Schedule) (now : Int) : Option Int × Schedule :=
  match sch.next_run_at with
  | some t => (some t, sch)
  | none =>
    match sch.next_post_time with
    | none => (none, sch)
    | some s =>
      if s ≠ "" ∧ s.toList.contains ':' then
        match hmFields s with
        | some hm =>
          match replaceHM? now hm.1 hm.2 with
          | some cand =>
            let t := rollForward now cand
            (some t, { sch with next_run_at := some t })
          | none => (none, sch)
        | none => (none, sch)
      else (none, sch)

/-- ScheduleManager.set_next_run_after_publish (app.py lines 163-166). -/
def set_next_run_after_publish (sch : Schedule) (now : Int) : Schedule :=
  { sch with next_run_at := some (now + 3600 * sch.frequency_hours) }

/-- Instant "today at HH:MM" relative to `now` (what
`now.replace(hour=h, minute=m, second=0, microsecond=0)` yields). -/
def todayAt (now h m : Int) : Int :=
  now - now % secondsPerDay + h * 3600 + m * 60

/-- The due time a valid "HH:MM" submission produces. -/
def scheduledRun (now h m : Int) : Int :=
  rollForward now (todayAt now h m)

/-! ## CommentsManager (app.py lines 257-326, database.py lines 248-267)

File backend: append, then keep the last 200 entries (`comments[-200:]`).
The relational backend enforces the same cap by deleting every row except
the 200 with the highest serial ids, i.e. the 200 most recently inserted,
so the same list model covers both. -/

structure Comment where
  chat_id : String
  message_id : Option String
  text : String
  timestamp : String
deriving Repr, DecidableEq

def commentCap : Nat := 200

/-- CommentsManager.add_comment (app.py lines 287-309). -/
def add_comment (comments : List Comment) (c : Comment) : List Comment :=
  if commentCap < (comments ++ [c]).length then
    (comments ++ [c]).drop ((comments ++ [c]).length - commentCap)
  else
    comments ++ [c]

/-! ## GroupsManager — file backend (app.py lines 328-405) and relational
backend (database.py lines 300-370)

The file backend holds a list of group records plus a single active-id
field; the relational backend holds rows in insertion (serial id) order
with a per-row active flag. -/

structure FileGroups where
  groups : List (String × String)
  active_group_id : Option String
deriving Repr, DecidableEq

def updateFirstTitle : List (String × String) → String → String → List (String × String)
  | [], _, _ => []
  | g :: gs, gid, title =>
    if g.1 = gid then (g.1, if title = "" then g.2 else title) :: gs
    else g :: updateFirstTitle gs gid title

/-- GroupsManager.add_group, file backend (app.py lines 369-382): upsert by
id, refreshing the stored title only when the supplied title is truthy. -/
def gm_add_group (fg : FileGroups) (group_id title : String) : FileGroups :=
  if fg.groups.any (fun g => g.1 == group_id) then
    { fg with groups := updateFirstTitle fg.groups group_id title }
  else
    { fg with groups :=
        fg.groups ++ [(group_id, if title = "" then "Группа " ++ group_id else title)] }

/-- GroupsManager.set_active, file backend (app.py lines 384-398). -/
def gm_set_active (fg : FileGroups) (group_id : String) : FileGroups :=
  if fg.groups.any (fun g => g.1 == group_id) then
    { fg with active_group_id := some group_id }
  else
    { groups := fg.groups ++ [(group_id, "Группа " ++ group_id)],
      active_group_id := some group_id }

/-- GroupsManager.get_active (app.py lines 400-405): the stored active id if
truthy, else the first registered group, else None. -/
def gm_get_active (fg : FileGroups) : Option String :=
  match fg.active_group_id with
  | some a =>
    if a ≠ "" then some a
    else
      match fg.groups with
      | [] => none
      | g :: _ => some g.1
  | none =>
    match fg.groups with
    | [] => none
    | g :: _ => some g.1

/-- Observation of the file backend: the record list and the effective
active id. -/
def gm_load (fg : FileGroups) : List (String × String) × Option String :=
  (fg.groups, gm_get_active fg)

structure DbGroupRow where
  group_id : String
  title : String
  is_active : Bool
deriving Repr, DecidableEq

/-- database.db_groups_add (database.py lines 342-355): INSERT with
is_active FALSE, ON CONFLICT (group_id) DO UPDATE SET title; the title
written is `title or str(group_id)`. -/
def db_groups_add (rows : List DbGroupRow) (group_id title : String) : List DbGroupRow :=
  if rows.any (fun r => r.group_id == group_id) then
    rows.map (fun r =>
      if r.group_id == group_id then
        { r with title := if title = "" then group_id else title }
      else r)
  else
    rows ++ [⟨group_id, if title = "" then group_id else title, false⟩]

/-- database.db_groups_set_active (database.py lines 357-370): clear every
active flag, set the flag on the matching row, and insert the row as active
with the default title when no row matched. -/
def db_groups_set_active (rows : List DbGroupRow) (group_id : String) : List DbGroupRow :=
  if rows.any (fun r => r.group_id == group_id) then
    rows.map (fun r => { r with is_active := r.group_id == group_id })
  else
    rows.map (fun r => { r with is_active := false }) ++
      [⟨group_id, "Группа " ++ group_id, true⟩]

/-- GroupsManager.add_group in DB mode (app.py line 372) passes
`title or f"Группа {gid}"` down to db_groups_add. -/
def gm_add_group_db (rows : List DbGroupRow) (group_id title : String) : List DbGroupRow :=
  db_groups_add rows group_id (if title = "" then "Группа " ++ group_id else title)

/-- Effective active id computed by db_groups_load. -/
def db_groups_active (rows : List DbGroupRow) : Option String :=
  let active0 := (rows.find? (fun r => r.is_active)).map (fun r => r.group_id)
  let truthy :=
    match active0 with
    | some a => a != ""
    | none => false
  if truthy then active0
  else
    match rows with
    | [] => active0
    | r :: _ => some r.group_id

/-- database.db_groups_load (database.py lines 300-320): rows in insertion
order as (group_id, title) pairs, plus the effective active id — the first
flagged row if its id is truthy, else the first group. -/
def db_groups_load (rows : List DbGroupRow) : List (String × String) × Option String :=
  (rows.map (fun r => (r.group_id, r.title)), db_groups_active rows)

/-- Store operations on the groups store, applied identically to both
backends. -/
inductive GOp
  | addGroup (group_id title : String)
  | setActive (group_id : String)
deriving Repr, DecidableEq

def gm_apply_file (fg : FileGroups) : GOp → FileGroups
  | .addGroup gid title => gm_add_group fg gid title
  | .setActive gid => gm_set_active fg gid

def gm_apply_db (rows : List DbGroupRow) : GOp → List DbGroupRow
  | .addGroup gid title => gm_add_group_db rows gid title
  | .setActive gid => db_groups_set_active rows gid

def gm_run_file (ops : List GOp) : FileGroups :=
  ops.foldl gm_apply_file ⟨[], none⟩

def gm_run_db (ops : List GOp) : List DbGroupRow :=
  ops.foldl gm_apply_db []

/-- An operation is admissible when it is not an upsert of an existing id
with an empty title (the one case the two backends decide differently). -/
def ok_step (fg : FileGroups) : GOp → Bool
  | .addGroup gid title => !(fg.groups.any (fun g => g.1 == gid)) || (title != "")
  | .setActive _ => true

def ok_ops : FileGroups → List GOp → Bool
  | _, [] => true
  | fg, op :: rest => ok_step fg op && ok_ops (gm_apply_file fg op) rest

def countActive (rows : List DbGroupRow) : Nat :=
  rows.countP (fun r => r.is_active)

/-! ## Publish pipeline and scheduler loop (app.py lines 496-517, 1417-1541, 1685-1710)

generate_and_publish_post is embedded over an environment describing the
external collaborators: whether Settings.validate() passes, whether Zapier
mode is configured, and whether any step of the try-block raises.  Nothing
inside the try-block before the final `set_next_run_after_publish()` call
touches the schedule store, and every status send catches its own errors,
so the schedule effect of a cycle is exactly what is modelled here; the
stats store (written only on the direct-mode success path) is not part of
the schedule claims. -/

structure PublishEnv where
  validate_ok : Bool
  zapier_mode : Bool
  pipeline_raises : Bool
deriving Repr, DecidableEq

inductive PublishStatus
  | success
  | error
deriving Repr, DecidableEq

/-- generate_and_publish_post (app.py lines 1417-1541): returns the final
status together with the schedule store as the cycle leaves it. -/
def generate_and_publish_post (env : PublishEnv) (sch : Schedule) (now : Int) :
    PublishStatus × Schedule :=
  if ¬ env.validate_ok then
    (.error, sch)
  else if env.pipeline_raises then
    (.error, sch)
  else if env.zapier_mode then
    (.success, if sch.enabled then set_next_run_after_publish sch now else sch)
  else
    (.success, if sch.enabled then set_next_run_after_publish sch now else sch)

/-- One iteration of the direct-mode scheduler loop body (app.py lines
504-517).  The Bool records whether a generate-and-publish cycle was
triggered. -/
def scheduler_loop_tick (env : PublishEnv) (sch : Schedule) (now : Int) :
    Schedule × Bool :=
  if ¬ sch.enabled then
    (sch, false)
  else
    match get_next_run_at sch now with
    | (some t, sch2) =>
      if now ≥ t then ((generate_and_publish_post env sch2 now).2, true)
      else (sch2, false)
    | (none, sch2) => (sch2, false)

/-- The /zapier/should-post poll (app.py lines 1685-1710).  Returns the
schedule store, the should_post flag, and whether content generation was
attempted; `gen_ok` is whether _generate_post_content_for_zapier produced a
payload. -/
def zapier_should_post (zapier_mode gen_ok : Bool) (sch : Schedule) (now : Int) :
    Schedule × Bool × Bool :=
  if ¬ zapier_mode then
    (sch, false, false)
  else if ¬ sch.enabled then
    (sch, false, false)
  else
    match get_next_run_at sch now with
    | (none, sch2) => (sch2, false, false)
    | (some t, sch2) =>
      if now < t then (sch2, false, false)
      else if ¬ gen_ok then (sch2, false, true)
      else (set_next_run_after_publish sch2 now, true, true)

/-! ## Groups backend parity and the single-active invariant -/

/-- Correspondence between a file-backend group state and a relational
row list: same records in the same order, duplicate-free ids, and the
active marking represented compatibly. -/
def GRel (fg : FileGroups) (rows : List DbGroupRow) : Prop :=
  fg.groups = rows.map (fun r => (r.group_id, r.title)) ∧
  (rows.map (fun r => r.group_id)).Nodup ∧
  ((fg.active_group_id = none ∧ ∀ r ∈ rows, r.is_active = false) ∨
   (∃ a, fg.active_group_id = some a ∧ (∃ r ∈ rows, r.group_id = a) ∧
     ∀ r ∈ rows, (r.is_active = true ↔ r.group_id = a)))

/-- Relational-backend invariant: duplicate-free group ids and at most one
active flag. -/
def DbInv (rows : List DbGroupRow) : Prop :=
  (rows.map (fun r => r.group_id)).Nodup ∧ countActive rows ≤ 1

/-! ## Administrator command handler (app.py lines 1208-1415) and the
/schedule endpoint (app.py lines 1777-1807)

The handler is a function of the command token, the source chat id and the
full message text; its side effects are limited to the schedule, groups,
comments and stats stores collected in `BotState`.  External configuration
(admin identity, Zapier mode, local time zone, the local-to-server time
conversion and the read-only stats rendering) is an environment. -/

structure PostStat where
  post_id : Option String
  text_id : Option String
  photo_id : Option String
  views : Int
  comments : Int
deriving Repr, DecidableEq

structure BotState where
  sched : Schedule
  groups : FileGroups
  comments : List Comment
  stats : List PostStat
deriving Repr, DecidableEq

structure BotEnv where
  now : Int
  admin_chat_id : Option String
  zapier_mode : Bool
  local_timezone_name : Option String
  local_timezone_ok : Bool
  convert_local : Int → Int → Option String
  stats_text : Int → List PostStat → String
  telegram_group_id : Option String

/-- Python `x or default` on an optional string (None and "" are falsy). -/
def pyOr (v : Option String) (d : String) : String :=
  match v with
  | some s => if s = "" then d else s
  | none => d

/-- get_active_group_id (app.py lines 492-494). -/
def get_active_group_id (env : BotEnv) (fg : FileGroups) : Option String :=
  match gm_get_active fg with
  | some a => if a = "" then env.telegram_group_id else some a
  | none => env.telegram_group_id

/-- Exactly-two-field time parse used by the /settime and /setlocal
branches: `hour, minute = map(int, time_str.split(":"))` raises unless the
split yields precisely two integer fields. -/
def hmExact (s : String) : Option (Int × Int) :=
  match splitOnChar ':' s.toList with
  | [a, b] =>
    match pyInt? (String.mk a), pyInt? (String.mk b) with
    | some h, some m => some (h, m)
    | _, _ => none
  | _ => none

def denialText : String := "❌ У вас нет прав для выполнения этой команды."

def unknownText : String :=
  "❌ Неизвестная команда. Используйте /help для списка доступных команд."

def addgroupText : String :=
  "📌 Отправьте /addgroup в чате той группы, куда добавлен бот — группа будет добавлена в список. Либо добавьте группу вручную: /setgroup ID_группы"

def helpText (env : BotEnv) : String :=
  let zapier_note :=
    if env.zapier_mode then
      "\n📌 <i>Публикация в Telegram идёт через Zapier (бот и группа подключаются в Zapier).</i>\n"
    else ""
  let tz_note :=
    match env.local_timezone_name with
    | some nm =>
      if nm = "" then ""
      else "\n🕒 Локальный часовой пояс: <code>" ++ nm ++
        "</code> (команда /setlocal HH:MM задаёт время в нём)."
    | none => ""
  "🤖 <b>SMM-эксперт путешественника</b>" ++ zapier_note ++ tz_note ++
  "\n\n<b>Доступные команды:</b>\n/generate_now - Сгенерировать пост без расписания (только для администратора)\n/schedule - Показать текущее расписание публикаций\n/settime HH:MM - Установить время следующей публикации (серверное время, например: /settime 14:30)\n/setlocal HH:MM - Установить время следующей публикации по локальному времени (если задан LOCAL_TIMEZONE)\n/setfreq N - Установить частоту публикаций в часах (например: /setfreq 24)\n/stats - Показать статистику вовлеченности за последние 7 дней\n/stats N - Показать статистику за последние N дней\n/groups - Список групп для публикаций\n/setgroup ID - Выбрать активную группу для публикаций\n/addgroup - Добавить группу (отправьте в чате группы, где бот админ)\n/toggle_schedule - Включить/выключить генерацию по расписанию\n/nextpost - Показать информацию о следующем запланированном посте\n\nПримеры:\n/settime 09:00 - установить публикацию на 9 утра (по времени сервера)\n/setlocal 10:00 - установить публикацию на 10:00 по локальному времени\n/setfreq 12 - публиковать каждые 12 часов"

def scheduleText (sch : Schedule) : String :=
  (if sch.enabled then "✅" else "⏸️") ++ " <b>Текущее расписание:</b>\n\n" ++
  "📅 <b>Следующая публикация:</b> " ++ pyOr sch.next_post_time "Не установлено" ++
  "\n⏰ <b>Частота:</b> каждые " ++ toString sch.frequency_hours ++
  " часов\n🔄 <b>Статус:</b> " ++ (if sch.enabled then "Включено" else "Выключено") ++
  "\n\nИспользуйте /settime для установки времени или /setfreq для изменения частоты."

/-- The /settime branch (app.py lines 1269-1290). -/
def settime_branch (env : BotEnv) (message_text : String) (st : BotState) :
    String × BotState :=
  match pySplit message_text with
  | _ :: time_str :: _ =>
    match hmExact time_str with
    | some hm =>
      if 0 ≤ hm.1 ∧ hm.1 ≤ 23 ∧ 0 ≤ hm.2 ∧ hm.2 ≤ 59 then
        ("✅ Время следующей публикации установлено: <b>" ++ time_str ++
           "</b>\n\n📅 Следующий пост будет опубликован в " ++ time_str,
         { st with sched := set_next_post_time st.sched time_str env.now })
      else
        ("❌ Неверное время. Используйте формат HH:MM (например: 14:30)", st)
    | none =>
      ("❌ Неверный формат времени. Используйте: /settime HH:MM\nПример: /settime 14:30", st)
  | _ =>
    ("❌ Неверный формат. Используйте: /settime HH:MM\nПример: /settime 14:30", st)

/-- The /setlocal branch (app.py lines 1292-1312). -/
def setlocal_branch (env : BotEnv) (message_text : String) (st : BotState) :
    String × BotState :=
  match pySplit message_text with
  | _ :: time_str :: _ =>
    if ¬ env.local_timezone_ok then
      ("❌ Локальный часовой пояс не настроен. Установите переменную окружения LOCAL_TIMEZONE (например, Europe/Moscow).", st)
    else
      match hmExact time_str with
      | some hm =>
        if 0 ≤ hm.1 ∧ hm.1 ≤ 23 ∧ 0 ≤ hm.2 ∧ hm.2 ≤ 59 then
          match env.convert_local hm.1 hm.2 with
          | some server_time =>
            if server_time = "" then
              ("❌ Не удалось перевести локальное время в серверное. Проверьте LOCAL_TIMEZONE.", st)
            else
              ("✅ Время следующей публикации установлено по локальному времени: <b>" ++
                 time_str ++
                 "</b>\n🕒 Это соответствует серверному времени (UTC) примерно: <b>" ++
                 server_time ++ "</b>",
               { st with sched := set_next_post_time st.sched server_time env.now })
          | none =>
            ("❌ Не удалось перевести локальное время в серверное. Проверьте LOCAL_TIMEZONE.", st)
        else
          ("❌ Неверное время. Используйте формат HH:MM (например: 10:00)", st)
      | none =>
        ("❌ Неверный формат времени. Используйте: /setlocal HH:MM\nПример: /setlocal 10:00", st)
  | _ =>
    ("❌ Неверный формат. Используйте: /setlocal HH:MM\nПример: /setlocal 10:00", st)

/-- The /setfreq branch (app.py lines 1314-1331). -/
def setfreq_branch (message_text : String) (st : BotState) : String × BotState :=
  match pySplit message_text with
  | _ :: arg :: _ =>
    match pyInt? arg with
    | some hours =>
      if hours < 1 then
        ("❌ Частота должна быть не менее 1 часа", st)
      else
        ("✅ Частота публикаций установлена: <b>каждые " ++ toString hours ++
           " часов</b>\n\n📅 Посты будут публиковаться каждые " ++ toString hours ++
           " часов",
         { st with sched := set_frequency st.sched hours })
    | none =>
      ("❌ Неверный формат. Используйте: /setfreq N\nПример: /setfreq 24", st)
  | _ =>
    ("❌ Неверный формат. Используйте: /setfreq N\nПример: /setfreq 24 (каждые 24 часа)", st)

/-- The /stats branch (app.py lines 1333-1360): the day count defaults to 7
on parse failure or a non-positive value; rendering is read-only. -/
def stats_branch (env : BotEnv) (message_text : String) (st : BotState) :
    String × BotState :=
  let days : Int :=
    match pySplit message_text with
    | _ :: arg :: _ =>
      match pyInt? arg with
      | some d => if d < 1 then 7 else d
      | none => 7
    | _ => 7
  (env.stats_text days st.stats, st)

/-- The /toggle_schedule branch (app.py lines 1362-1367). -/
def toggle_branch (st : BotState) : String × BotState :=
  ((if ¬ st.sched.enabled then "✅" else "⏸️") ++ " Расписание теперь: <b>" ++
     (if ¬ st.sched.enabled then "Включено" else "Выключено") ++ "</b>",
   { st with sched := set_enabled st.sched (¬ st.sched.enabled) })

def groupsEntries (activeStr : String) : List (String × String) → Nat → String
  | [], _ => ""
  | g :: gs, i =>
    toString i ++ ". " ++ g.2 ++ "\n   ID: <code>" ++ g.1 ++ "</code>" ++
      (if g.1 = activeStr then " ✅ (активная)" else "") ++ "\n\n" ++
      groupsEntries activeStr gs (i + 1)

/-- The /groups rendering (app.py lines 1369-1385); `str(active_id)` is
"None" when no active id exists. -/
def groupsText (env : BotEnv) (st : BotState) : String :=
  let all_groups := st.groups.groups
  let active_id := get_active_group_id env st.groups
  let shown :=
    match all_groups, active_id with
    | [], some a => if a ≠ "" then [(a, "Группа из TELEGRAM_GROUP_ID")] else []
    | gs, _ => gs
  let activeStr :=
    match active_id with
    | some a => a
    | none => "None"
  "👥 <b>Группы для публикаций</b>\n\n" ++ groupsEntries activeStr shown 1 ++
  "Используйте /setgroup ID чтобы выбрать группу, /addgroup — добавить группу (отправьте в чате группы)."

/-- The /setgroup branch (app.py lines 1387-1394); GroupsManager.set_active
always reports success. -/
def setgroup_branch (message_text : String) (st : BotState) : String × BotState :=
  match pySplitMax1 message_text with
  | _ :: gid0 :: _ =>
    let gid := pyStrip gid0
    ("✅ Активная группа установлена: <code>" ++ gid ++ "</code>",
     { st with groups := gm_set_active st.groups gid })
  | _ =>
    ("❌ Используйте: /setgroup ID_группы\nПример: /setgroup -1001234567890", st)

def nextpostEmptyText : String :=
  "⚠️ Время следующей публикации не установлено.\n\nИспользуйте /settime HH:MM для установки времени следующей публикации."

/-- The /nextpost rendering (app.py lines 1399-1412). -/
def nextpostText (sch : Schedule) : String :=
  match sch.next_post_time with
  | some t =>
    if t ≠ "" then
      "📅 <b>Следующий запланированный пост:</b>\n\n⏰ <b>Время:</b> " ++ t ++
      "\n🔄 <b>Частота:</b> каждые " ++ toString sch.frequency_hours ++
      " часов\n\n✅ Пост будет опубликован автоматически в указанное время."
    else nextpostEmptyText
  | none => nextpostEmptyText

/-- handle_bot_command (app.py lines 1208-1415).  Authorization first, then
dispatch on `command.lower().strip()` with startswith checks for the
parameterised commands, in source order. -/
def handle_bot_command (env : BotEnv) (command chat_id message_text : String)
    (st : BotState) : String × BotState :=
  if some chat_id ≠ env.admin_chat_id then
    (denialText, st)
  else
    let cmd := pyStrip (lowerStr command)
    if cmd = "/start" ∨ cmd = "/help" then (helpText env, st)
    else if cmd = "/schedule" then (scheduleText st.sched, st)
    else if cmd = "/generate_now" then ("", st)
    else if startsWith "/settime" cmd then settime_branch env message_text st
    else if startsWith "/setlocal" cmd then setlocal_branch env message_text st
    else if startsWith "/setfreq" cmd then setfreq_branch message_text st
    else if startsWith "/stats" cmd then stats_branch env message_text st
    else if cmd = "/toggle_schedule" then toggle_branch st
    else if cmd = "/groups" then (groupsText env st, st)
    else if startsWith "/setgroup" cmd then setgroup_branch message_text st
    else if cmd = "/addgroup" then (addgroupText, st)
    else if cmd = "/nextpost" then (nextpostText st.sched, st)
    else (unknownText, st)

structure ScheduleRequest where
  next_post_time : Option String
  frequency_hours : Option Int
  enabled : Option Bool
deriving Repr, DecidableEq

/-- The POST /schedule endpoint (app.py lines 1777-1789): each supplied
field is applied to the schedule store with no validation. -/
def set_schedule (req : ScheduleRequest) (sch : Schedule) (now : Int) : Schedule :=
  let sch1 :=
    match req.next_post_time with
    | some v => set_next_post_time sch v now
    | none => sch
  let sch2 :=
    match req.frequency_hours with
    | some h => set_frequency sch1 h
    | none => sch1
  match req.enabled with
  | some e => set_enabled sch2 e
  | none => sch2

/-- Folding a sequence of webhook command deliveries
(command, chat id, full text) through the handler. -/
def runAdminCommands (env : BotEnv) (cmds : List (String × String × String))
    (st : BotState) : BotState :=
  cmds.foldl (fun s c => (handle_bot_command env c.1 c.2.1 c.2.2 s).2) st

/-- Outcome of the /settime argument parse: the hour-minute pair when the
argument exists, splits into exactly two integer fields and is in range. -/
def settimeParsed (msg : String) : Option (Int × Int) :=
  match pySplit msg with
  | _ :: time_str :: _ =>
    match hmExact time_str with
    | some hm =>
      if 0 ≤ hm.1 ∧ hm.1 ≤ 23 ∧ 0 ≤ hm.2 ∧ hm.2 ≤ 59 then some hm else none
    | none => none
  | _ => none

/-- Outcome of the /setfreq argument parse (Python int of the second
token). -/
def setfreqParsed (msg : String) : Option Int :=
  match pySplit msg with
  | _ :: arg :: _ => pyInt? arg
  | _ => none

/-- A concrete environment for witnesses: administrator chat id "1". -/
def sampleEnv : BotEnv :=
  ⟨0, some "1", false, none, false, fun _ _ => none, fun _ _ => "", none⟩

/-- A concrete fresh state for witnesses. -/
def sampleState : BotState :=
  ⟨defaultSchedule, ⟨[], none⟩, [], []⟩

theorem replaceHM_eq (now h m : Int) (hh0 : 0 ≤ h) (hh1 : h ≤ 23) (hm0 : 0 ≤ m)
    (hm1 : m ≤ 59) : replaceHM? now h m = some (todayAt now h m) := by
  unfold replaceHM? todayAt
  rw [if_pos ⟨hh0, hh1, hm0, hm1⟩]

theorem rollForward_future (now cand : Int) (h : now - secondsPerDay < cand) :
    now < rollForward now cand := by
  unfold rollForward secondsPerDay at *
  split <;> omega

theorem emod_day_bounds (now : Int) :
    0 ≤ now % secondsPerDay ∧ now % secondsPerDay < secondsPerDay :=
  ⟨Int.emod_nonneg now (by decide), Int.emod_lt_of_pos now (by decide)⟩

/-- C1: for every call of set_next_post_time with an "HH:MM" wall-clock value
(a non-empty string of at most five characters containing a colon whose two
colon-separated fields parse to a valid hour and minute), the resulting
next_run_at is strictly greater than the call time, and equals today at HH:MM
when that instant is still in the future at the call, else tomorrow at HH:MM. -/
theorem set_next_post_time_hhmm_strictly_future (sch : Schedule) (s : String)
    (now h m : Int) (hne : s ≠ "") (hcol : s.toList.contains ':' = true)
    (hlen : s.toList.length ≤ 5) (hf : hmFields s = some (h, m))
    (hh0 : 0 ≤ h) (hh1 : h ≤ 23) (hm0 : 0 ≤ m) (hm1 : m ≤ 59) :
    (set_next_post_time sch s now).next_run_at = some (scheduledRun now h m) ∧
    now < scheduledRun now h m ∧
    (now < todayAt now h m → scheduledRun now h m = todayAt now h m) ∧
    (todayAt now h m ≤ now → scheduledRun now h m = todayAt now h m + secondsPerDay) := by
  have hrep := replaceHM_eq now h m hh0 hh1 hm0 hm1
  refine ⟨?_, ?_, ?_, ?_⟩
  · unfold set_next_post_time
    rw [if_pos ⟨hne, hcol, hlen⟩, hf]
    dsimp only
    rw [hrep]
    rfl
  · refine rollForward_future now _ ?_
    have hb := emod_day_bounds now
    unfold todayAt secondsPerDay at *
    omega
  · intro hlt
    unfold scheduledRun rollForward
    rw [if_neg (not_le.mpr hlt)]
  · intro hle
    unfold scheduledRun rollForward
    rw [if_pos hle]

/-- Witness for C1 at the concrete input "09:00" with the call made at
08:20:00 on the epoch day: the stored due time is today 09:00. -/
theorem set_next_post_time_hhmm_strictly_future_witness :
    (set_next_post_time defaultSchedule "09:00" 30000).next_run_at = some 32400 ∧
    (30000 : Int) < 32400 := by
  have h := set_next_post_time_hhmm_strictly_future defaultSchedule "09:00" 30000 9 0
    (by decide) (by decide) (by decide) (by decide) (by decide) (by decide)
    (by decide) (by decide)
  have e : scheduledRun 30000 9 0 = 32400 := by decide
  exact ⟨by rw [h.1, e], by omega⟩

/-- C10 counterexample: "09:00:00" is not a short "HH:MM" string (eight
characters), so set_next_post_time stores it without recomputing
next_run_at; yet with no prior next_run_at, get_next_run_at does NOT return
None — it derives today/tomorrow at 09:00 from the first two colon fields
and returns it, contradicting the claim that such a value never produces a
firing time. -/
theorem set_next_post_time_long_value_counterexample :
    (set_next_post_time defaultSchedule "09:00:00" 0).next_post_time = some "09:00:00" ∧
    (set_next_post_time defaultSchedule "09:00:00" 0).next_run_at = none ∧
    (get_next_run_at (set_next_post_time defaultSchedule "09:00:00" 0) 0).1 = some 32400 ∧
    some (32400 : Int) ≠ none := by
  refine ⟨by decide, by decide, by decide, by decide⟩

/-- C10 amended: a value that fails the short-"HH:MM" guard is stored as
next_post_time with next_run_at left at its prior value; when no prior
next_run_at exists, a subsequent get_next_run_at returns None exactly when
the first two colon-separated fields of the stored value do not parse to a
valid hour and minute (true of any date-bearing ISO timestamp), and
otherwise lazily derives a firing time from those fields. -/
theorem set_next_post_time_long_value_no_recompute (sch : Schedule) (s : String)
    (now now2 : Int)
    (hguard : ¬(s ≠ "" ∧ s.toList.contains ':' = true ∧ s.toList.length ≤ 5)) :
    (set_next_post_time sch s now).next_post_time = some s ∧
    (set_next_post_time sch s now).next_run_at = sch.next_run_at ∧
    (sch.next_run_at = none →
      (get_next_run_at (set_next_post_time sch s now) now2).1 =
        (if s ≠ "" ∧ s.toList.contains ':' = true then
          match hmFields s with
          | some hm => (replaceHM? now2 hm.1 hm.2).map (rollForward now2)
          | none => none
        else none)) := by
  have hset : set_next_post_time sch s now = { sch with next_post_time := some s } := by
    unfold set_next_post_time
    rw [if_neg hguard]
  refine ⟨by rw [hset], by rw [hset], ?_⟩
  intro h0
  rw [hset]
  unfold get_next_run_at
  dsimp only
  rw [h0]
  by_cases hc : s ≠ "" ∧ s.toList.contains ':' = true
  · rw [if_pos hc, if_pos hc]
    rcases hfm : hmFields s with _ | hm
    · rfl
    · rcases hrp : replaceHM? now2 hm.1 hm.2 with _ | cand
      · dsimp only
        rw [hrp]
        rfl
      · dsimp only
        rw [hrp]
        rfl
  · rw [if_neg hc, if_neg hc]

theorem add_comment_length_le (l : List Comment) (c : Comment)
    (h : l.length ≤ commentCap) : (add_comment l c).length ≤ commentCap := by
  unfold add_comment commentCap at *
  split
  · rename_i hgt
    simp only [List.length_drop, List.length_append, List.length_cons, List.length_nil] at *
    omega
  · rename_i hle
    simp only [List.length_append, List.length_cons, List.length_nil] at *
    omega

/-- C4: from an empty cache the comment collection never exceeds 200 records
after any sequence of add_comment calls; what survives is always a suffix of
the insertion sequence (eviction removes oldest-inserted first); and adding
one comment to a cache of exactly 200 drops precisely the oldest entry and
appends the new one, leaving the size at 200. -/
theorem comment_cache_capped :
    (∀ cs : List Comment, (cs.foldl add_comment []).length ≤ commentCap) ∧
    (∀ (l : List Comment) (c : Comment), (add_comment l c) <:+ (l ++ [c])) ∧
    (∀ (l : List Comment) (c : Comment), l.length = 200 →
      add_comment l c = l.drop 1 ++ [c] ∧ (add_comment l c).length = 200) := by
  refine ⟨?_, ?_, ?_⟩
  · intro cs
    suffices h : ∀ (l : List Comment), l.length ≤ commentCap →
        (cs.foldl add_comment l).length ≤ commentCap by
      exact h [] (by simp [commentCap])
    induction cs with
    | nil => intro l hl; simpa using hl
    | cons c cs ih =>
      intro l hl
      exact ih (add_comment l c) (add_comment_length_le l c hl)
  · intro l c
    unfold add_comment
    split
    · exact List.drop_suffix _ _
    · exact List.suffix_refl _
  · intro l c hl
    have h1 : (l ++ [c]).length = 201 := by simp [hl]
    constructor
    · unfold add_comment
      rw [if_pos (by unfold commentCap; omega)]
      rw [h1]
      show (l ++ [c]).drop (201 - commentCap) = l.drop 1 ++ [c]
      have hcap : 201 - commentCap = 1 := by unfold commentCap; omega
      rw [hcap]
      exact List.drop_append_of_le_length (by omega)
    · unfold add_comment
      rw [if_pos (by unfold commentCap; omega)]
      simp [h1, commentCap]

/-- Witness for C4: a concrete cache of 200 identical comments plus one new
comment keeps size 200, loses the head, and ends with the new comment. -/
theorem comment_cache_capped_witness :
    add_comment (List.replicate 200 ⟨"g", none, "old", "t0"⟩) ⟨"g", none, "new", "t1"⟩ =
      (List.replicate 200 (⟨"g", none, "old", "t0"⟩ : Comment)).drop 1 ++
        [⟨"g", none, "new", "t1"⟩] ∧
    (add_comment (List.replicate 200 ⟨"g", none, "old", "t0"⟩)
      ⟨"g", none, "new", "t1"⟩).length = 200 :=
  comment_cache_capped.2.2 (List.replicate 200 ⟨"g", none, "old", "t0"⟩)
    ⟨"g", none, "new", "t1"⟩ (List.length_replicate 200 _)

/-- C2 counterexample: a publish cycle that completes successfully while the
schedule is disabled does NOT update next_run_at — it keeps its previous
value instead of becoming completion time plus frequency_hours, so
set_next_run_after_publish is not invoked on every successful cycle. -/
theorem generate_and_publish_disabled_counterexample :
    (generate_and_publish_post ⟨true, false, false⟩
        { defaultSchedule with enabled := false, next_run_at := some 5 } 100).1 =
      .success ∧
    (generate_and_publish_post ⟨true, false, false⟩
        { defaultSchedule with enabled := false, next_run_at := some 5 } 100).2.next_run_at =
      some 5 ∧
    some (5 : Int) ≠ some ((100 : Int) + 3600 * 24) := by
  refine ⟨by decide, by decide, by decide⟩

/-- C2 amended: after a publish cycle that completes successfully (directly
or Zapier-delegated) while the schedule is enabled, next_run_at equals the
completion time plus frequency_hours, overwriting any previous value; after
a failed cycle, or a successful cycle with the schedule disabled, the whole
schedule store is left unchanged. -/
theorem generate_and_publish_next_run (env : PublishEnv) (sch : Schedule) (now : Int) :
    ((generate_and_publish_post env sch now).1 = .success → sch.enabled = true →
      (generate_and_publish_post env sch now).2.next_run_at =
        some (now + 3600 * sch.frequency_hours)) ∧
    ((generate_and_publish_post env sch now).1 = .error →
      (generate_and_publish_post env sch now).2 = sch) ∧
    ((generate_and_publish_post env sch now).1 = .success → sch.enabled = false →
      (generate_and_publish_post env sch now).2 = sch) := by
  unfold generate_and_publish_post
  rcases env with ⟨v, z, r⟩
  rcases v <;> rcases z <;> rcases r <;>
    rcases he : sch.enabled <;>
      simp [set_next_run_after_publish, he]

/-- Witness for the amended C2: an enabled Zapier-delegated successful cycle
at time 100 with frequency 24 stores next_run_at = 100 + 3600 * 24. -/
theorem generate_and_publish_next_run_witness :
    (generate_and_publish_post ⟨true, true, false⟩ defaultSchedule 100).2.next_run_at =
      some ((100 : Int) + 3600 * 24) := by
  have h := generate_and_publish_next_run ⟨true, true, false⟩ defaultSchedule 100
  exact h.1 (by decide) (by decide)

/-- C9: when the schedule is disabled, a direct-mode scheduler tick triggers
no content generation and leaves the schedule store (in particular
next_run_at) unchanged, and the /zapier/should-post poll likewise attempts
no generation and changes nothing. -/
theorem scheduler_disabled_no_generation (env : PublishEnv) (zm gok : Bool)
    (sch : Schedule) (now : Int) (hd : sch.enabled = false) :
    scheduler_loop_tick env sch now = (sch, false) ∧
    zapier_should_post zm gok sch now = (sch, false, false) := by
  constructor
  · unfold scheduler_loop_tick
    rw [if_pos (by simp [hd])]
  · unfold zapier_should_post
    rcases zm
    · rw [if_pos (by simp)]
    · rw [if_neg (by simp), if_pos (by simp [hd])]

/-- Witness for C9 at a concrete disabled schedule that is long overdue. -/
theorem scheduler_disabled_no_generation_witness :
    scheduler_loop_tick ⟨true, false, false⟩
        { defaultSchedule with enabled := false, next_run_at := some 3 } 100 =
      ({ defaultSchedule with enabled := false, next_run_at := some 3 }, false) ∧
    zapier_should_post true true
        { defaultSchedule with enabled := false, next_run_at := some 3 } 100 =
      ({ defaultSchedule with enabled := false, next_run_at := some 3 }, false, false) :=
  scheduler_disabled_no_generation ⟨true, false, false⟩ true true
    { defaultSchedule with enabled := false, next_run_at := some 3 } 100 (by decide)

/-- Witness for the amended C10 at a date-bearing ISO timestamp: the value
is stored, next_run_at stays None, and get_next_run_at returns None. -/
theorem set_next_post_time_long_value_no_recompute_witness :
    (set_next_post_time defaultSchedule "2026-10-12T09:00:00" 0).next_post_time =
      some "2026-10-12T09:00:00" ∧
    (set_next_post_time defaultSchedule "2026-10-12T09:00:00" 0).next_run_at = none ∧
    (get_next_run_at (set_next_post_time defaultSchedule "2026-10-12T09:00:00" 0) 5).1 =
      none := by
  have h := set_next_post_time_long_value_no_recompute defaultSchedule
    "2026-10-12T09:00:00" 0 5 (by decide)
  refine ⟨h.1, h.2.1, ?_⟩
  rw [h.2.2 rfl]
  decide

theorem any_gid_eq (fg : FileGroups) (rows : List DbGroupRow) (gid : String)
    (hg : fg.groups = rows.map (fun r => (r.group_id, r.title))) :
    fg.groups.any (fun g => g.1 == gid) = rows.any (fun r => r.group_id == gid) := by
  rw [hg]
  clear hg
  induction rows with
  | nil => rfl
  | cons r rs ih => simp only [List.map_cons, List.any_cons, ih]

theorem group_title_ne_empty (s : String) : "Группа " ++ s ≠ "" := by
  intro h
  have hlen := congrArg String.length h
  rw [String.length_append] at hlen
  have h7 : ("Группа " : String).length = 7 := by decide
  have h0 : ("" : String).length = 0 := by decide
  omega

theorem map_eq_self_of_id {α : Type} (l : List α) (f : α → α)
    (h : ∀ a ∈ l, f a = a) : l.map f = l := by
  induction l with
  | nil => rfl
  | cons x xs ih =>
    simp only [List.map_cons]
    rw [h x (by simp), ih (fun a ha => h a (by simp [ha]))]

theorem map_map_congr {α β : Type} (l : List α) (f : α → α) (g : α → β)
    (h : ∀ a, g (f a) = g a) : (l.map f).map g = l.map g := by
  rw [List.map_map]
  exact List.map_congr_left (fun a _ => h a)

theorem updateFirstTitle_eq_map (rows : List DbGroupRow) (gid title : String)
    (hnd : (rows.map (fun r => r.group_id)).Nodup) (ht : title ≠ "") :
    updateFirstTitle (rows.map (fun r => (r.group_id, r.title))) gid title =
      (rows.map (fun r =>
        if r.group_id == gid then { r with title := if title = "" then gid else title }
        else r)).map (fun r => (r.group_id, r.title)) := by
  induction rows with
  | nil => rfl
  | cons r rs ih =>
    simp only [List.map_cons, List.nodup_cons] at hnd ⊢
    by_cases hr : r.group_id = gid
    · have hbeq : (r.group_id == gid) = true := by simpa using hr
      have htail : rs.map (fun x =>
          if x.group_id == gid then { x with title := if title = "" then gid else title }
          else x) = rs := by
        refine map_eq_self_of_id rs _ (fun r' hr' => ?_)
        have hne : (r'.group_id == gid) = false := by
          simp only [beq_eq_false_iff_ne, ne_eq]
          intro he
          apply hnd.1
          rw [hr, ← he]
          exact List.mem_map_of_mem _ hr'
        rw [hne]
        simp
      show (if (r.group_id, r.title).1 = gid then
          ((r.group_id, r.title).1, if title = "" then (r.group_id, r.title).2 else title) ::
            rs.map (fun x => (x.group_id, x.title))
        else (r.group_id, r.title) ::
          updateFirstTitle (rs.map (fun x => (x.group_id, x.title))) gid title) = _
      rw [if_pos hr, htail, hbeq]
      simp [if_neg ht]
    · have hbeq : (r.group_id == gid) = false := by simpa using hr
      show (if (r.group_id, r.title).1 = gid then
          ((r.group_id, r.title).1, if title = "" then (r.group_id, r.title).2 else title) ::
            rs.map (fun x => (x.group_id, x.title))
        else (r.group_id, r.title) ::
          updateFirstTitle (rs.map (fun x => (x.group_id, x.title))) gid title) = _
      rw [if_neg hr, hbeq]
      simp only [Bool.false_eq_true, if_false]
      rw [ih hnd.2]

theorem GRel_add (fg : FileGroups) (rows : List DbGroupRow) (gid title : String)
    (hrel : GRel fg rows)
    (hok : fg.groups.any (fun g => g.1 == gid) = true → title ≠ "") :
    GRel (gm_add_group fg gid title) (gm_add_group_db rows gid title) := by
  obtain ⟨hg, hnd, hact⟩ := hrel
  have hany := any_gid_eq fg rows gid hg
  by_cases hp : rows.any (fun r => r.group_id == gid) = true
  · have ht : title ≠ "" := hok (by rw [hany]; exact hp)
    have hfile : gm_add_group fg gid title =
        { fg with groups := updateFirstTitle fg.groups gid title } := by
      unfold gm_add_group
      rw [hany, if_pos hp]
    have hdb : gm_add_group_db rows gid title =
        rows.map (fun r => if r.group_id == gid then
          { r with title := if title = "" then gid else title } else r) := by
      unfold gm_add_group_db
      rw [if_neg ht]
      unfold db_groups_add
      rw [if_pos hp]
    rw [hfile, hdb]
    refine ⟨?_, ?_, ?_⟩
    · show updateFirstTitle fg.groups gid title = _
      rw [hg]
      exact updateFirstTitle_eq_map rows gid title hnd ht
    · rw [map_map_congr rows _ (fun r => r.group_id)
        (fun r => by by_cases h : r.group_id == gid <;> simp [h])]
      exact hnd
    · rcases hact with ⟨ha, hall⟩ | ⟨a, ha, ⟨r0, hr0, hr0g⟩, hiff⟩
      · refine Or.inl ⟨ha, ?_⟩
        rw [List.forall_mem_map]
        intro r hr
        by_cases h : r.group_id == gid <;> simp [h, hall r hr]
      · refine Or.inr ⟨a, ha, ?_, ?_⟩
        · refine ⟨if r0.group_id == gid then
            { r0 with title := if title = "" then gid else title } else r0,
            List.mem_map_of_mem _ hr0, ?_⟩
          by_cases h : (r0.group_id == gid) = true
          · rw [if_pos h]
            exact hr0g
          · rw [if_neg h]
            exact hr0g
        · rw [List.forall_mem_map]
          intro r hr
          by_cases h : (r.group_id == gid) = true
          · rw [if_pos h]
            exact hiff r hr
          · rw [if_neg h]
            exact hiff r hr
  · have hpf : rows.any (fun r => r.group_id == gid) = false := by
      simpa using hp
    have hmem : gid ∉ rows.map (fun r => r.group_id) := by
      intro hm
      obtain ⟨r, hr, hrg⟩ := List.mem_map.mp hm
      have := (List.any_eq_false.mp hpf) r hr
      simp [hrg] at this
    have htne : (if title = "" then "Группа " ++ gid else title) ≠ "" := by
      by_cases h : title = ""
      · rw [if_pos h]
        exact group_title_ne_empty gid
      · rw [if_neg h]
        exact h
    have hfile : gm_add_group fg gid title =
        { fg with groups :=
            fg.groups ++ [(gid, if title = "" then "Группа " ++ gid else title)] } := by
      unfold gm_add_group
      rw [hany, hpf]
      simp only [Bool.false_eq_true, if_false]
    have hdb : gm_add_group_db rows gid title =
        rows ++ [⟨gid, if title = "" then "Группа " ++ gid else title, false⟩] := by
      unfold gm_add_group_db db_groups_add
      rw [hpf]
      simp only [Bool.false_eq_true, if_false]
      rw [if_neg htne]
    rw [hfile, hdb]
    refine ⟨?_, ?_, ?_⟩
    · show fg.groups ++ _ = _
      rw [hg, List.map_append]
      rfl
    · simp only [List.map_append, List.map_cons, List.map_nil]
      rw [List.nodup_append]
      exact ⟨hnd, List.nodup_singleton _, by simpa using hmem⟩
    · rcases hact with ⟨ha, hall⟩ | ⟨a, ha, ⟨r0, hr0, hr0g⟩, hiff⟩
      · refine Or.inl ⟨ha, ?_⟩
        intro r hr
        rcases List.mem_append.mp hr with h | h
        · exact hall r h
        · simp at h
          rw [h]
      · refine Or.inr ⟨a, ha, ⟨r0, List.mem_append_left _ hr0, hr0g⟩, ?_⟩
        intro r hr
        rcases List.mem_append.mp hr with h | h
        · exact hiff r h
        · simp at h
          subst h
          simp only [Bool.false_eq_true, false_iff]
          intro he
          exact hmem (by rw [he, ← hr0g]; exact List.mem_map_of_mem _ hr0)

theorem GRel_setActive (fg : FileGroups) (rows : List DbGroupRow) (gid : String)
    (hrel : GRel fg rows) :
    GRel (gm_set_active fg gid) (db_groups_set_active rows gid) := by
  obtain ⟨hg, hnd, _⟩ := hrel
  have hany := any_gid_eq fg rows gid hg
  by_cases hp : rows.any (fun r => r.group_id == gid) = true
  · have hfile : gm_set_active fg gid = { fg with active_group_id := some gid } := by
      unfold gm_set_active
      rw [hany, if_pos hp]
    have hdb : db_groups_set_active rows gid =
        rows.map (fun r => { r with is_active := r.group_id == gid }) := by
      unfold db_groups_set_active
      rw [if_pos hp]
    rw [hfile, hdb]
    obtain ⟨r0, hr0, hr0g⟩ := by simpa using List.any_eq_true.mp hp
    refine ⟨?_, ?_, Or.inr ⟨gid, rfl, ?_, ?_⟩⟩
    · show fg.groups = _
      rw [hg]
      exact (map_map_congr rows
        (fun r => { r with is_active := r.group_id == gid })
        (fun r => (r.group_id, r.title)) (fun r => rfl)).symm
    · rw [map_map_congr rows
        (fun r => { r with is_active := r.group_id == gid })
        (fun r => r.group_id) (fun r => rfl)]
      exact hnd
    · exact ⟨{ r0 with is_active := r0.group_id == gid },
        List.mem_map_of_mem _ hr0, hr0g⟩
    · rw [List.forall_mem_map]
      intro r _
      simp
  · have hpf : rows.any (fun r => r.group_id == gid) = false := by simpa using hp
    have hmem : gid ∉ rows.map (fun r => r.group_id) := by
      intro hm
      obtain ⟨r, hr, hrg⟩ := List.mem_map.mp hm
      have := (List.any_eq_false.mp hpf) r hr
      simp [hrg] at this
    have hfile : gm_set_active fg gid =
        { groups := fg.groups ++ [(gid, "Группа " ++ gid)],
          active_group_id := some gid } := by
      unfold gm_set_active
      rw [hany, hpf]
      simp only [Bool.false_eq_true, if_false]
    have hdb : db_groups_set_active rows gid =
        rows.map (fun r => { r with is_active := false }) ++
          [⟨gid, "Группа " ++ gid, true⟩] := by
      unfold db_groups_set_active
      rw [hpf]
      simp only [Bool.false_eq_true, if_false]
    rw [hfile, hdb]
    refine ⟨?_, ?_, Or.inr ⟨gid, rfl, ?_, ?_⟩⟩
    · show fg.groups ++ _ = _
      rw [hg, List.map_append, map_map_congr rows
        (fun r => { r with is_active := false })
        (fun r => (r.group_id, r.title)) (fun r => rfl)]
      rfl
    · simp only [List.map_append, List.map_cons, List.map_nil]
      rw [map_map_congr rows
        (fun r => { r with is_active := false })
        (fun r => r.group_id) (fun r => rfl), List.nodup_append]
      exact ⟨hnd, List.nodup_singleton _, by simpa using hmem⟩
    · exact ⟨⟨gid, "Группа " ++ gid, true⟩, List.mem_append_right _ (by simp), rfl⟩
    · intro r hr
      rcases List.mem_append.mp hr with h | h
      · obtain ⟨r1, hr1, hr1e⟩ := List.mem_map.mp h
        rw [← hr1e]
        simp only [Bool.false_eq_true, false_iff]
        intro he
        exact hmem (by rw [← he]; exact List.mem_map_of_mem _ hr1)
      · simp at h
        rw [h]
        simp

theorem GRel_init : GRel ⟨[], none⟩ [] :=
  ⟨rfl, List.nodup_nil, Or.inl ⟨rfl, by simp⟩⟩

theorem GRel_steps (ops : List GOp) : ∀ (fg : FileGroups) (rows : List DbGroupRow),
    GRel fg rows → ok_ops fg ops = true →
    GRel (ops.foldl gm_apply_file fg) (ops.foldl gm_apply_db rows) := by
  induction ops with
  | nil =>
    intro fg rows h _
    exact h
  | cons op rest ih =>
    intro fg rows h hok
    rw [ok_ops, Bool.and_eq_true] at hok
    cases op with
    | addGroup gid title =>
      refine ih _ _ (GRel_add fg rows gid title h ?_) hok.2
      intro hpresent
      have h1 := hok.1
      rw [ok_step, hpresent] at h1
      simpa using h1
    | setActive gid =>
      exact ih _ _ (GRel_setActive fg rows gid h) hok.2

theorem GRel_load (fg : FileGroups) (rows : List DbGroupRow) (h : GRel fg rows) :
    gm_load fg = db_groups_load rows := by
  obtain ⟨hg, hnd, hact⟩ := h
  unfold gm_load db_groups_load
  rw [Prod.mk.injEq]
  refine ⟨hg, ?_⟩
  unfold gm_get_active db_groups_active
  rcases hact with ⟨ha, hall⟩ | ⟨a, ha, ⟨r0, hr0, hr0g⟩, hiff⟩
  · rw [ha]
    have hfind : rows.find? (fun r => r.is_active) = none :=
      List.find?_eq_none.mpr (fun x hx => by simp [hall x hx])
    rw [hfind]
    dsimp only
    cases rows with
    | nil =>
      rw [show fg.groups = [] from hg]
      rfl
    | cons r rs =>
      rw [hg]
      rfl
  · rw [ha]
    have hflag : r0.is_active = true := (hiff r0 hr0).mpr hr0g
    have hsome : (rows.find? (fun r => r.is_active)).isSome :=
      List.find?_isSome.mpr ⟨r0, hr0, by simp [hflag]⟩
    obtain ⟨r1, hr1⟩ := Option.isSome_iff_exists.mp hsome
    have hr1mem := List.mem_of_find?_eq_some hr1
    have hr1flag : r1.is_active = true := by simpa using List.find?_some hr1
    have hr1g : r1.group_id = a := (hiff r1 hr1mem).mp hr1flag
    rw [hr1]
    have hmap : Option.map (fun r => r.group_id) (some r1) = some a := by
      simp [hr1g]
    rw [hmap]
    dsimp only
    by_cases hae : a = ""
    · subst hae
      rw [if_neg (fun h => h rfl), if_neg (by decide)]
      cases rows with
      | nil => cases hr0
      | cons r rs =>
        rw [hg]
        rfl
    · have hbne : (a != "") = true := by simpa using hae
      rw [if_pos hae, if_pos hbne]

/-- C3 counterexample: applying the same two-operation sequence — add group
"1" with title "Old", then add_group("1", "") — to both backends yields
observably different load results: the file backend keeps the stored title
"Old" (empty title does not refresh), while the relational backend
overwrites it with the default "Группа 1". -/
theorem groups_backend_counterexample :
    gm_run_file [.addGroup "1" "Old", .addGroup "1" ""] =
      ⟨[("1", "Old")], none⟩ ∧
    gm_run_db [.addGroup "1" "Old", .addGroup "1" ""] =
      [⟨"1", "Группа 1", false⟩] ∧
    gm_load (gm_run_file [.addGroup "1" "Old", .addGroup "1" ""]) ≠
      db_groups_load (gm_run_db [.addGroup "1" "Old", .addGroup "1" ""]) := by
  refine ⟨by decide, by decide, by decide⟩

/-- C3 amended: for every sequence of add_group/set_active operations
applied identically to the file backend and to the relational backend in
which no add_group call upserts an existing group id with an empty title,
the subsequent load results are observationally equivalent; when an
existing id is upserted with an empty title the file backend keeps the
stored title while the relational backend resets it to the default
"Группа {id}". -/
theorem groups_backend_equiv (ops : List GOp)
    (hok : ok_ops ⟨[], none⟩ ops = true) :
    gm_load (gm_run_file ops) = db_groups_load (gm_run_db ops) :=
  GRel_load _ _ (GRel_steps ops ⟨[], none⟩ [] GRel_init hok)

/-- Witness for the amended C3 on a concrete admissible sequence mixing
upserts (with a non-empty refreshed title) and set_active calls. -/
theorem groups_backend_equiv_witness :
    ok_ops ⟨[], none⟩
      [.addGroup "1" "Old", .setActive "2", .addGroup "1" "New"] = true ∧
    gm_load (gm_run_file [.addGroup "1" "Old", .setActive "2", .addGroup "1" "New"]) =
      db_groups_load (gm_run_db [.addGroup "1" "Old", .setActive "2", .addGroup "1" "New"]) :=
  ⟨by decide, groups_backend_equiv _ (by decide)⟩

theorem countP_gid_le_one (rows : List DbGroupRow) (gid : String)
    (hnd : (rows.map (fun r => r.group_id)).Nodup) :
    rows.countP (fun r => r.group_id == gid) ≤ 1 := by
  induction rows with
  | nil => simp
  | cons r rs ih =>
    simp only [List.map_cons, List.nodup_cons] at hnd
    rw [List.countP_cons]
    by_cases h : r.group_id = gid
    · have hz : rs.countP (fun r => r.group_id == gid) = 0 := by
        rw [List.countP_eq_zero]
        intro r' hr'
        simp only [beq_iff_eq]
        intro he
        apply hnd.1
        rw [h, ← he]
        exact List.mem_map_of_mem _ hr'
      simp [hz, h]
    · have hb : (r.group_id == gid) = false := by simpa using h
      simp only [hb, Bool.false_eq_true, if_false]
      have := ih hnd.2
      omega

theorem dbinv_step (rows : List DbGroupRow) (op : GOp) (h : DbInv rows) :
    DbInv (gm_apply_db rows op) := by
  obtain ⟨hnd, hcnt⟩ := h
  cases op with
  | addGroup gid title =>
    show DbInv (gm_add_group_db rows gid title)
    unfold gm_add_group_db db_groups_add
    by_cases hp : rows.any (fun r => r.group_id == gid) = true
    · rw [if_pos hp]
      constructor
      · rw [map_map_congr rows _ (fun r => r.group_id)
          (fun r => by by_cases h : (r.group_id == gid) = true <;> simp [h])]
        exact hnd
      · unfold countActive
        rw [List.countP_map]
        refine le_trans (le_of_eq (List.countP_congr (fun r _ => ?_))) hcnt
        show (_ : Bool) = true ↔ r.is_active = true
        by_cases h : (r.group_id == gid) = true <;> simp [h, Function.comp]
    · have hpf : rows.any (fun r => r.group_id == gid) = false := by simpa using hp
      have hmem : gid ∉ rows.map (fun r => r.group_id) := by
        intro hm
        obtain ⟨r, hr, hrg⟩ := List.mem_map.mp hm
        have := (List.any_eq_false.mp hpf) r hr
        simp [hrg] at this
      rw [hpf]
      simp only [Bool.false_eq_true, if_false]
      constructor
      · simp only [List.map_append, List.map_cons, List.map_nil]
        rw [List.nodup_append]
        exact ⟨hnd, List.nodup_singleton _, by simpa using hmem⟩
      · unfold countActive at *
        rw [List.countP_append]
        simp only [List.countP_cons, List.countP_nil, Bool.false_eq_true, if_false]
        omega
  | setActive gid =>
    show DbInv (db_groups_set_active rows gid)
    unfold db_groups_set_active
    by_cases hp : rows.any (fun r => r.group_id == gid) = true
    · rw [if_pos hp]
      constructor
      · rw [map_map_congr rows (fun r => { r with is_active := r.group_id == gid })
          (fun r => r.group_id) (fun r => rfl)]
        exact hnd
      · unfold countActive
        rw [List.countP_map]
        refine le_trans (le_of_eq (List.countP_congr (fun r _ => Iff.rfl)))
          (countP_gid_le_one rows gid hnd)
    · have hpf : rows.any (fun r => r.group_id == gid) = false := by simpa using hp
      have hmem : gid ∉ rows.map (fun r => r.group_id) := by
        intro hm
        obtain ⟨r, hr, hrg⟩ := List.mem_map.mp hm
        have := (List.any_eq_false.mp hpf) r hr
        simp [hrg] at this
      rw [hpf]
      simp only [Bool.false_eq_true, if_false]
      constructor
      · simp only [List.map_append, List.map_cons, List.map_nil]
        rw [map_map_congr rows (fun r => { r with is_active := false })
          (fun r => r.group_id) (fun r => rfl), List.nodup_append]
        exact ⟨hnd, List.nodup_singleton _, by simpa using hmem⟩
      · unfold countActive
        rw [List.countP_append, List.countP_map]
        have hz : rows.countP ((fun r => r.is_active) ∘
            (fun r => { r with is_active := false })) = 0 := by
          rw [List.countP_eq_zero]
          intro r _
          simp [Function.comp]
        rw [hz]
        simp

theorem dbinv_run (ops : List GOp) : DbInv (gm_run_db ops) := by
  unfold gm_run_db
  suffices h : ∀ (rows : List DbGroupRow), DbInv rows →
      DbInv (ops.foldl gm_apply_db rows) by
    exact h [] ⟨List.nodup_nil, by simp [countActive]⟩
  induction ops with
  | nil =>
    intro rows h
    exact h
  | cons op rest ih =>
    intro rows h
    exact ih _ (dbinv_step rows op h)

/-- C5: after every sequence of add_group/set_active operations the
relational backend marks at most one group active; set_active(id) leaves
the flag set only on rows whose group_id equals id (clearing every other
mark); and set_active on an unknown id implicitly inserts that group as the
active one.  (In the file backend the active mark is a single optional
field, so at most one group is marked by construction.) -/
theorem groups_at_most_one_active :
    (∀ ops : List GOp, countActive (gm_run_db ops) ≤ 1) ∧
    (∀ (rows : List DbGroupRow) (gid : String) (r : DbGroupRow),
        r ∈ db_groups_set_active rows gid → r.is_active = true → r.group_id = gid) ∧
    (∀ (rows : List DbGroupRow) (gid : String),
        rows.any (fun r => r.group_id == gid) = false →
        (⟨gid, "Группа " ++ gid, true⟩ : DbGroupRow) ∈ db_groups_set_active rows gid) := by
  refine ⟨fun ops => (dbinv_run ops).2, ?_, ?_⟩
  · intro rows gid r hr hflag
    unfold db_groups_set_active at hr
    by_cases hp : rows.any (fun r => r.group_id == gid) = true
    · rw [if_pos hp] at hr
      obtain ⟨r1, _, hr1e⟩ := List.mem_map.mp hr
      rw [← hr1e] at hflag ⊢
      simpa using hflag
    · have hpf : rows.any (fun r => r.group_id == gid) = false := by simpa using hp
      rw [hpf] at hr
      simp only [Bool.false_eq_true, if_false] at hr
      rcases List.mem_append.mp hr with h | h
      · obtain ⟨r1, _, hr1e⟩ := List.mem_map.mp h
        rw [← hr1e] at hflag
        simp at hflag
      · simp at h
        rw [h]
  · intro rows gid hpf
    unfold db_groups_set_active
    rw [hpf]
    simp only [Bool.false_eq_true, if_false]
    exact List.mem_append_right _ (by simp)

/-- Witness for C5: a concrete run ends with exactly one active mark, and
set_active on an id absent from a concrete row list inserts it as active. -/
theorem groups_at_most_one_active_witness :
    countActive (gm_run_db [.addGroup "1" "A", .setActive "2", .setActive "1"]) ≤ 1 ∧
    (⟨"9", "Группа 9", true⟩ : DbGroupRow) ∈
      db_groups_set_active [⟨"1", "A", true⟩] "9" :=
  ⟨groups_at_most_one_active.1 _,
   groups_at_most_one_active.2.2 [⟨"1", "A", true⟩] "9" (by decide)⟩

theorem dispatch_settime (env : BotEnv) (chat_id msg : String) (st : BotState)
    (hadm : env.admin_chat_id = some chat_id) :
    handle_bot_command env "/settime" chat_id msg st = settime_branch env msg st := by
  unfold handle_bot_command
  rw [hadm, if_neg (by simp)]
  rfl

theorem dispatch_setlocal (env : BotEnv) (chat_id msg : String) (st : BotState)
    (hadm : env.admin_chat_id = some chat_id) :
    handle_bot_command env "/setlocal" chat_id msg st = setlocal_branch env msg st := by
  unfold handle_bot_command
  rw [hadm, if_neg (by simp)]
  rfl

theorem dispatch_setfreq (env : BotEnv) (chat_id msg : String) (st : BotState)
    (hadm : env.admin_chat_id = some chat_id) :
    handle_bot_command env "/setfreq" chat_id msg st = setfreq_branch msg st := by
  unfold handle_bot_command
  rw [hadm, if_neg (by simp)]
  rfl

theorem settime_branch_malformed (env : BotEnv) (msg : String) (st : BotState)
    (h : settimeParsed msg = none) :
    (settime_branch env msg st).2 = st ∧
    startsWith "❌" (settime_branch env msg st).1 = true := by
  unfold settime_branch
  unfold settimeParsed at h
  rcases hsp : pySplit msg with _ | ⟨t0, rest⟩
  · exact ⟨rfl, rfl⟩
  · rcases rest with _ | ⟨t1, rest2⟩
    · exact ⟨rfl, rfl⟩
    · rw [hsp] at h
      dsimp only at h ⊢
      rcases hex : hmExact t1 with _ | hm
      · exact ⟨rfl, rfl⟩
      · rw [hex] at h
        dsimp only at h ⊢
        by_cases hr : 0 ≤ hm.1 ∧ hm.1 ≤ 23 ∧ 0 ≤ hm.2 ∧ hm.2 ≤ 59
        · rw [if_pos hr] at h
          exact absurd h (by simp)
        · rw [if_neg hr]
          exact ⟨rfl, rfl⟩

theorem setlocal_branch_malformed (env : BotEnv) (msg : String) (st : BotState)
    (h : settimeParsed msg = none) :
    (setlocal_branch env msg st).2 = st ∧
    startsWith "❌" (setlocal_branch env msg st).1 = true := by
  unfold setlocal_branch
  unfold settimeParsed at h
  rcases hsp : pySplit msg with _ | ⟨t0, rest⟩
  · exact ⟨rfl, rfl⟩
  · rcases rest with _ | ⟨t1, rest2⟩
    · exact ⟨rfl, rfl⟩
    · rw [hsp] at h
      dsimp only at h ⊢
      by_cases htz : env.local_timezone_ok = true
      · rw [if_neg (by simp [htz])]
        rcases hex : hmExact t1 with _ | hm
        · exact ⟨rfl, rfl⟩
        · rw [hex] at h
          dsimp only at h ⊢
          by_cases hr : 0 ≤ hm.1 ∧ hm.1 ≤ 23 ∧ 0 ≤ hm.2 ∧ hm.2 ≤ 59
          · rw [if_pos hr] at h
            exact absurd h (by simp)
          · rw [if_neg hr]
            exact ⟨rfl, rfl⟩
      · rw [if_pos (by simpa using htz)]
        exact ⟨rfl, rfl⟩

theorem setfreq_branch_malformed (msg : String) (st : BotState)
    (h : setfreqParsed msg = none) :
    (setfreq_branch msg st).2 = st ∧
    startsWith "❌" (setfreq_branch msg st).1 = true := by
  unfold setfreq_branch
  unfold setfreqParsed at h
  rcases hsp : pySplit msg with _ | ⟨t0, rest⟩
  · exact ⟨rfl, rfl⟩
  · rcases rest with _ | ⟨t1, rest2⟩
    · exact ⟨rfl, rfl⟩
    · rw [hsp] at h
      dsimp only at h ⊢
      rw [h]
      exact ⟨rfl, rfl⟩

theorem setfreq_branch_nonpositive (msg : String) (st : BotState) (n : Int)
    (h : setfreqParsed msg = some n) (hn : n < 1) :
    (setfreq_branch msg st).2 = st ∧
    startsWith "❌" (setfreq_branch msg st).1 = true := by
  unfold setfreq_branch
  unfold setfreqParsed at h
  rcases hsp : pySplit msg with _ | ⟨t0, rest⟩
  · rw [hsp] at h
    exact absurd h (by simp)
  · rcases rest with _ | ⟨t1, rest2⟩
    · rw [hsp] at h
      exact absurd h (by simp)
    · rw [hsp] at h
      dsimp only at h ⊢
      rw [h]
      dsimp only
      rw [if_pos hn]
      exact ⟨rfl, rfl⟩

/-- C6: for every command whose source chat id differs from the configured
administrator identity (including the case where no administrator is
configured), the handler returns the fixed denial message and leaves every
store — schedule, groups, comments and stats — unmutated. -/
theorem handler_unauthorized (env : BotEnv) (command chat_id message_text : String)
    (st : BotState) (h : some chat_id ≠ env.admin_chat_id) :
    handle_bot_command env command chat_id message_text st = (denialText, st) := by
  unfold handle_bot_command
  rw [if_pos h]

/-- Witness for C6: chat id "999" issuing /setfreq 5 against administrator
"1" gets the denial text and the state is unchanged. -/
theorem handler_unauthorized_witness :
    handle_bot_command sampleEnv "/setfreq" "999" "/setfreq 5" sampleState =
      (denialText, sampleState) :=
  handler_unauthorized sampleEnv "/setfreq" "999" "/setfreq 5" sampleState (by decide)

/-- C7: for the administrator, every malformed argument to /settime,
/setlocal or /setfreq (missing, non-numeric, out-of-range time components,
or hours below 1) yields an error reply (starting with the error marker)
with the whole state unchanged — never a partial application — while the
well-formed input "/setfreq 12" stores frequency 12. -/
theorem handler_strict_parsing (env : BotEnv) (chat_id : String) (st : BotState)
    (hadm : env.admin_chat_id = some chat_id) :
    (∀ msg, settimeParsed msg = none →
      (handle_bot_command env "/settime" chat_id msg st).2 = st ∧
      startsWith "❌" (handle_bot_command env "/settime" chat_id msg st).1 = true) ∧
    (∀ msg, settimeParsed msg = none →
      (handle_bot_command env "/setlocal" chat_id msg st).2 = st ∧
      startsWith "❌" (handle_bot_command env "/setlocal" chat_id msg st).1 = true) ∧
    (∀ msg, setfreqParsed msg = none →
      (handle_bot_command env "/setfreq" chat_id msg st).2 = st ∧
      startsWith "❌" (handle_bot_command env "/setfreq" chat_id msg st).1 = true) ∧
    (∀ msg n, setfreqParsed msg = some n → n < 1 →
      (handle_bot_command env "/setfreq" chat_id msg st).2 = st ∧
      startsWith "❌" (handle_bot_command env "/setfreq" chat_id msg st).1 = true) ∧
    handle_bot_command env "/setfreq" chat_id "/setfreq 12" st =
      ("✅ Частота публикаций установлена: <b>каждые 12 часов</b>\n\n📅 Посты будут публиковаться каждые 12 часов",
       { st with sched := set_frequency st.sched 12 }) := by
  refine ⟨?_, ?_, ?_, ?_, ?_⟩
  · intro msg h
    rw [dispatch_settime env chat_id msg st hadm]
    exact settime_branch_malformed env msg st h
  · intro msg h
    rw [dispatch_setlocal env chat_id msg st hadm]
    exact setlocal_branch_malformed env msg st h
  · intro msg h
    rw [dispatch_setfreq env chat_id msg st hadm]
    exact setfreq_branch_malformed msg st h
  · intro msg n h hn
    rw [dispatch_setfreq env chat_id msg st hadm]
    exact setfreq_branch_nonpositive msg st n h hn
  · rw [dispatch_setfreq env chat_id "/setfreq 12" st hadm]
    rfl

/-- Witness for C7: concrete malformed inputs "/setfreq abc", "/setfreq 0"
and "/settime 25:00" leave the fresh state unchanged with an error reply,
and "/setfreq 12" stores frequency 12. -/
theorem handler_strict_parsing_witness :
    (handle_bot_command sampleEnv "/setfreq" "1" "/setfreq abc" sampleState).2 =
      sampleState ∧
    (handle_bot_command sampleEnv "/setfreq" "1" "/setfreq 0" sampleState).2 =
      sampleState ∧
    (handle_bot_command sampleEnv "/settime" "1" "/settime 25:00" sampleState).2 =
      sampleState ∧
    (handle_bot_command sampleEnv "/setfreq" "1" "/setfreq 12" sampleState).2.sched.frequency_hours =
      12 := by
  have h := handler_strict_parsing sampleEnv "1" sampleState (by decide)
  refine ⟨(h.2.2.1 "/setfreq abc" (by decide)).1,
    (h.2.2.2.1 "/setfreq 0" 0 (by decide) (by decide)).1,
    (h.1 "/settime 25:00" (by decide)).1, ?_⟩
  rw [h.2.2.2.2]
  rfl

theorem set_next_post_time_frequency (sch : Schedule) (s : String) (now : Int) :
    (set_next_post_time sch s now).frequency_hours = sch.frequency_hours := by
  unfold set_next_post_time
  dsimp only
  split
  · split
    · split
      · rfl
      · rfl
    · rfl
  · rfl

theorem settime_branch_frequency (env : BotEnv) (msg : String) (st : BotState) :
    (settime_branch env msg st).2.sched.frequency_hours =
      st.sched.frequency_hours := by
  unfold settime_branch
  split
  · split
    · split
      · exact set_next_post_time_frequency _ _ _
      · rfl
    · rfl
  · rfl

theorem setlocal_branch_frequency (env : BotEnv) (msg : String) (st : BotState) :
    (setlocal_branch env msg st).2.sched.frequency_hours =
      st.sched.frequency_hours := by
  unfold setlocal_branch
  split
  · split
    · rfl
    · split
      · split
        · split
          · split
            · rfl
            · exact set_next_post_time_frequency _ _ _
          · rfl
        · rfl
      · rfl
  · rfl

theorem setgroup_branch_sched (msg : String) (st : BotState) :
    (setgroup_branch msg st).2.sched = st.sched := by
  unfold setgroup_branch
  split
  · rfl
  · rfl

theorem setfreq_branch_positive (msg : String) (st : BotState)
    (h : 1 ≤ st.sched.frequency_hours) :
    1 ≤ (setfreq_branch msg st).2.sched.frequency_hours := by
  unfold setfreq_branch
  split
  · split
    · split
      · exact h
      · rename_i h2
        dsimp only [set_frequency]
        omega
    · exact h
  · exact h

theorem handler_preserves_positive_frequency (env : BotEnv)
    (command chat_id message_text : String) (st : BotState)
    (h : 1 ≤ st.sched.frequency_hours) :
    1 ≤ (handle_bot_command env command chat_id message_text st).2.sched.frequency_hours := by
  delta handle_bot_command
  by_cases h1 : some chat_id ≠ env.admin_chat_id
  · rw [if_pos h1]
    exact h
  · rw [if_neg h1]
    dsimp only
    generalize pyStrip (lowerStr command) = c
    by_cases h2 : c = "/start" ∨ c = "/help"
    · rw [if_pos h2]
      exact h
    · rw [if_neg h2]
      by_cases h3 : c = "/schedule"
      · rw [if_pos h3]
        exact h
      · rw [if_neg h3]
        by_cases h4 : c = "/generate_now"
        · rw [if_pos h4]
          exact h
        · rw [if_neg h4]
          by_cases h5 : startsWith "/settime" c = true
          · rw [if_pos h5, settime_branch_frequency]
            exact h
          · rw [if_neg h5]
            by_cases h6 : startsWith "/setlocal" c = true
            · rw [if_pos h6, setlocal_branch_frequency]
              exact h
            · rw [if_neg h6]
              by_cases h7 : startsWith "/setfreq" c = true
              · rw [if_pos h7]
                exact setfreq_branch_positive message_text st h
              · rw [if_neg h7]
                by_cases h8 : startsWith "/stats" c = true
                · rw [if_pos h8]
                  exact h
                · rw [if_neg h8]
                  by_cases h9 : c = "/toggle_schedule"
                  · rw [if_pos h9]
                    exact h
                  · rw [if_neg h9]
                    by_cases h10 : c = "/groups"
                    · rw [if_pos h10]
                      exact h
                    · rw [if_neg h10]
                      by_cases h11 : startsWith "/setgroup" c = true
                      · rw [if_pos h11]
                        have hs := setgroup_branch_sched message_text st
                        rw [show (setgroup_branch message_text st).2.sched.frequency_hours
                            = st.sched.frequency_hours from by rw [hs]]
                        exact h
                      · rw [if_neg h11]
                        by_cases h12 : c = "/addgroup"
                        · rw [if_pos h12]
                          exact h
                        · rw [if_neg h12]
                          by_cases h13 : c = "/nextpost"
                          · rw [if_pos h13]
                            exact h
                          · rw [if_neg h13]
                            exact h

/-- C8 counterexample: the POST /schedule endpoint applies the supplied
frequency_hours with no validation, so a request carrying 0 stores a
non-positive frequency through the public interface. -/
theorem set_schedule_nonpositive_counterexample :
    (set_schedule ⟨none, some 0, none⟩ defaultSchedule 0).frequency_hours = 0 ∧
    ¬ 1 ≤ (set_schedule ⟨none, some 0, none⟩ defaultSchedule 0).frequency_hours := by
  refine ⟨by decide, by decide⟩

/-- C8 amended: administrator commands preserve positivity of the stored
frequency — after every sequence of handler deliveries starting from a
positive frequency it stays at least 1 — but the HTTP schedule endpoint
stores whatever integer the request supplies, without validating
hours >= 1, so it can drive frequency_hours non-positive. -/
theorem frequency_positive_amended (env : BotEnv)
    (cmds : List (String × String × String)) (st : BotState)
    (h : 1 ≤ st.sched.frequency_hours) :
    1 ≤ (runAdminCommands env cmds st).sched.frequency_hours ∧
    (∀ (req : ScheduleRequest) (sch : Schedule) (now f : Int),
      req.frequency_hours = some f → (set_schedule req sch now).frequency_hours = f) := by
  constructor
  · unfold runAdminCommands
    induction cmds generalizing st with
    | nil => exact h
    | cons c rest ih =>
      exact ih _ (handler_preserves_positive_frequency env c.1 c.2.1 c.2.2 st h)
  · intro req sch now f hf
    unfold set_schedule
    rw [hf]
    rcases he : req.enabled with _ | e
    · rfl
    · rfl

/-- Witness for the amended C8: a sequence containing a rejected
"/setfreq 0" and an accepted "/settime 09:00" keeps the frequency at least
1, and the endpoint applied to a request with frequency 0 stores exactly 0. -/
theorem frequency_positive_amended_witness :
    1 ≤ (runAdminCommands sampleEnv
      [("/setfreq", "1", "/setfreq 0"), ("/settime", "1", "/settime 09:00")]
      sampleState).sched.frequency_hours ∧
    (set_schedule ⟨none, some 0, none⟩ defaultSchedule 0).frequency_hours = 0 := by
  have h := frequency_positive_amended sampleEnv
    [("/setfreq", "1", "/setfreq 0"), ("/settime", "1", "/settime 09:00")]
    sampleState (by decide)
  exact ⟨h.1, h.2 ⟨none, some 0, none⟩ defaultSchedule 0 0 rfl⟩

end SMM

